import Mathlib

/-!
Verification of the borrowing-costs ETL pipeline

A shallow embedding of the data-handling core of the repository
(`scripts/project_level.py`, `scripts/crs/crs_data.py`,
`scripts/wb/statements_api.py`, `scripts/country_level.py`,
`scripts/ids/terms.py`).

Tables ("DataFrames") are embedded as lists of typed records.  Missing
values (NaN / pd.NA) are `Option.none`; numeric columns are `ℚ`.  Date
columns are embedded as `Int` (an epoch ordinal); string columns as
`String`.  Functions that in Python load their own inputs from disk or
from the network are parametrised here by those inputs, which is the
only change of interface: the body of each definition is a direct
transcription of the corresponding Python function.  Logging calls have
no data effect and are dropped.
-/

set_option autoImplicit false

namespace BorrowingCosts

/-! ## Generic aggregation helpers (pandas semantics)

`sumo` is the pandas `"sum"` aggregation: NaN values are skipped and an
all-NaN (or empty) group sums to 0.  `maxo` is the pandas `"max"`
aggregation: NaN values are skipped and an all-NaN group yields NaN.
`fmaxOpt` is `np.fmax`: it ignores NaN unless both operands are NaN. -/

def sumo (l : List (Option ℚ)) : ℚ :=
  (l.map (fun v => v.getD 0)).sum

def maxo : List (Option ℚ) → Option ℚ
  | [] => none
  | v :: rest =>
    match v, maxo rest with
    | none, m => m
    | some a, none => some a
    | some a, some b => some (max a b)

def fmaxOpt (a b : Option ℚ) : Option ℚ :=
  match a, b with
  | none, m => m
  | some x, none => some x
  | some x, some y => some (max x y)

/-- Lexicographic code-point order on strings (the string `<` of Python). -/
def strLt (a b : String) : Bool :=
  decide (a.data < b.data)

def strMax (a b : String) : String :=
  if strLt a b then b else a

/-- Maximum of a list of strings (pandas `"max"` over a non-null string
column; the `""` seed is below every string so it never wins on the
non-empty groups produced by a group-by). -/
def maxs (l : List String) : String :=
  l.foldl strMax ""

/-! ## `scripts/crs/crs_data.py` — `deduplicate_crs_data`

A raw CRS row, restricted to the columns `deduplicate_crs_data` reads
(the rows have already passed `split_project_number`, so `project_id`
and `loan_or_credit_number` are present). -/

structure CrsRaw where
  project_id : String
  loan_or_credit_number : String
  recipient_code : Int
  commitment_date : Int
  interest1 : Option ℚ
  interest2 : Option ℚ
  usd_interest : Option ℚ
  usd_received : Option ℚ
  usd_commitment : Option ℚ
  usd_disbursement : Option ℚ
  deriving DecidableEq, Repr

/-- A deduplicated CRS row: `commitment_date` has been renamed to
`board_approval_date`, the numeric columns aggregated per group, and
`interest1`/`interest2` folded into `interest_rate` and dropped. -/
structure CrsDedup where
  project_id : String
  loan_or_credit_number : String
  recipient_code : Int
  board_approval_date : Int
  usd_interest : ℚ
  usd_received : ℚ
  usd_commitment : ℚ
  usd_disbursement : ℚ
  interest_rate : Option ℚ
  deriving DecidableEq, Repr

abbrev CrsKey := String × String × Int × Int

/-- The group-by key of `deduplicate_crs_data` (after the rename,
`commitment_date` is the `board_approval_date` column). -/
def rawKey (r : CrsRaw) : CrsKey :=
  (r.project_id, r.loan_or_credit_number, r.recipient_code, r.commitment_date)

def dedupKey (r : CrsDedup) : CrsKey :=
  (r.project_id, r.loan_or_credit_number, r.recipient_code, r.board_approval_date)

/-- Embedding of `deduplicate_crs_data`: group by (project id, loan/credit number,
recipient code, board approval date); aggregate `interest1`/`interest2`
with `"max"` and the four `usd_` columns with `"sum"`; then set
`interest_rate = np.fmax(interest1, interest2) / 1000` and drop the two
`interest` columns.  (pandas emits the groups sorted by key; the key
order of the output rows is irrelevant to every property proved below,
and we keep one row per distinct input key via `List.dedup`.) -/
def deduplicate_crs_data (df : List CrsRaw) : List CrsDedup :=
  ((df.map rawKey).dedup).map (fun k =>
    let g := df.filter (fun r => rawKey r = k)
    { project_id := k.1
      loan_or_credit_number := k.2.1
      recipient_code := k.2.2.1
      board_approval_date := k.2.2.2
      usd_interest := sumo (g.map (fun r => r.usd_interest))
      usd_received := sumo (g.map (fun r => r.usd_received))
      usd_commitment := sumo (g.map (fun r => r.usd_commitment))
      usd_disbursement := sumo (g.map (fun r => r.usd_disbursement))
      interest_rate :=
        (fmaxOpt (maxo (g.map (fun r => r.interest1)))
                 (maxo (g.map (fun r => r.interest2)))).map (fun x => x / 1000) })

/-! ## `scripts/project_level.py` — the project-level reconciler

A WB project-level record as assembled by `get_project_level_data`
(IDA and IBRD statement summaries concatenated, ISO3 codes added). -/

structure WBRow where
  project_id : String
  loan_or_credit_number : String
  country : String
  iso3 : String
  board_approval_date : Int
  interest_rate : Option ℚ
  original_principal_amount : Option ℚ
  source : String
  deriving DecidableEq, Repr

/-- A WB record after `filter_keep_only_missing_interest` dropped the
`interest_rate` column. -/
structure WBRowNoRate where
  project_id : String
  loan_or_credit_number : String
  country : String
  iso3 : String
  board_approval_date : Int
  original_principal_amount : Option ℚ
  source : String
  deriving DecidableEq, Repr

def dropRate (r : WBRow) : WBRowNoRate :=
  { project_id := r.project_id
    loan_or_credit_number := r.loan_or_credit_number
    country := r.country
    iso3 := r.iso3
    board_approval_date := r.board_approval_date
    original_principal_amount := r.original_principal_amount
    source := r.source }

def withRate (r : WBRowNoRate) (v : Option ℚ) : WBRow :=
  { project_id := r.project_id
    loan_or_credit_number := r.loan_or_credit_number
    country := r.country
    iso3 := r.iso3
    board_approval_date := r.board_approval_date
    interest_rate := v
    original_principal_amount := r.original_principal_amount
    source := r.source }

/-- A CRS project record as produced by `get_crs_reported_projects`
(ISO3 added, dates parsed, flow columns dropped; descriptive columns
such as `donor_name` or `project_title` ride along unchanged and play no
role in the reconciliation, so only one representative is kept). -/
structure CRSRow where
  project_id : String
  loan_or_credit_number : String
  iso3 : String
  board_approval_date : Int
  interest_rate : Option ℚ
  donor_name : String
  deriving DecidableEq, Repr

abbrev JoinKey := String × String × String × Int

/-- The composite join key of `add_available_interest_rate_data_from_crs`:
`["project_id", "loan_or_credit_number", "iso3", "board_approval_date"]`. -/
def wbKey (r : WBRowNoRate) : JoinKey :=
  (r.project_id, r.loan_or_credit_number, r.iso3, r.board_approval_date)

def crsKey (r : CRSRow) : JoinKey :=
  (r.project_id, r.loan_or_credit_number, r.iso3, r.board_approval_date)

/-- Embedding of `filter_keep_only_missing_interest`: keep the rows whose
`interest_rate` is NaN and drop the `interest_rate` column. -/
def filter_keep_only_missing_interest (data : List WBRow) : List WBRowNoRate :=
  (data.filter (fun r => r.interest_rate.isNone)).map dropRate

/-- Embedding of `add_available_interest_rate_data_from_crs`: a pandas left merge of
the WB rows against the CRS rows on the composite key.  Each left row
joins to every matching right row (fanning out if several match) and
yields a single row with NaN in the CRS columns if none matches. -/
def add_available_interest_rate_data_from_crs
    (wb_data : List WBRowNoRate) (crs_data : List CRSRow) : List WBRow :=
  wb_data.flatMap (fun w =>
    let ms := crs_data.filter (fun c => crsKey c = wbKey w)
    if ms.isEmpty then [withRate w none]
    else ms.map (fun c => withRate w c.interest_rate))

/-- Embedding of `get_project_level_interest`, parametrised by its two loaded inputs
(`get_project_level_data()` and `get_crs_reported_projects()`):
1. keep the rows with a missing rate (rate column dropped);
2. keep the rows with a present rate as-is;
3. left-join the missing-rate partition against the CRS rows;
4. drop joined rows whose rate is still missing;
5. concatenate.  The logging of coverage counts has no data effect. -/
def get_project_level_interest
    (project_level_data : List WBRow) (crs_project_data : List CRSRow) : List WBRow :=
  let missing_interest := filter_keep_only_missing_interest project_level_data
  let present := project_level_data.filter (fun d => d.interest_rate.isSome)
  let merged := add_available_interest_rate_data_from_crs missing_interest crs_project_data
  let backfilled := merged.filter (fun d => d.interest_rate.isSome)
  present ++ backfilled

/-! ## `scripts/wb/statements_api.py` — `fetch_paginated_data`

The remote API is embedded as a function `api : Nat → List α` from the
`skip` offset to the page of records returned there with the fixed page
size `max_records` (`top`).  The `while True` loop is embedded with a
fuel parameter; `none` means the fuel ran out before a short page was
seen.  The theorems below show the fuel is immaterial: as soon as some
page is short, every sufficient fuel returns the same concatenation. -/

def fetchLoop {α : Type} (api : Nat → List α) (max_records : Nat) :
    Nat → Nat → List α → Option (List α)
  | 0, _, _ => none
  | fuel + 1, skip, all_data =>
    let data_batch := api skip
    let acc := all_data ++ data_batch
    if data_batch.length < max_records then some acc
    else fetchLoop api max_records fuel (skip + max_records) acc

/-- Embedding of `fetch_paginated_data`: start at `skip = 0` with an empty
accumulator, request a page, append it, stop as soon as a page is
shorter than `max_records`, else advance `skip` by `max_records`. -/
def fetch_paginated_data {α : Type} (api : Nat → List α) (max_records : Nat)
    (fuel : Nat) : Option (List α) :=
  fetchLoop api max_records fuel 0 []

/-! ## `scripts/wb/statements_api.py` — IDA/IBRD summaries -/

/-- Embedding of `zero_to_nan`, applied to one cell of the designated column:
`df[column].replace(0, pd.NA)`. -/
def zero_to_nan (v : Option ℚ) : Option ℚ :=
  if v = some 0 then none else v

/-- Embedding of `drop_duplicates(subset=…, keep="last")`: a row survives iff no
later row has the same subset key. -/
def dropDuplicatesKeepLast {α β : Type} [DecidableEq β] (key : α → β) :
    List α → List α
  | [] => []
  | a :: rest =>
    if rest.any (fun b => key b = key a) then dropDuplicatesKeepLast key rest
    else a :: dropDuplicatesKeepLast key rest

/-- A raw IDA statement row, restricted to the columns `get_ida_interest`
reads. -/
structure IdaRaw where
  credit_number : String
  board_approval_date : Int
  country_code : String
  project_id : String
  project_name : String
  country : String
  service_charge_rate : Option ℚ
  original_principal_amount_us_ : Option ℚ
  deriving DecidableEq, Repr

abbrev IdaKey := String × Int × String × String × String

def idaKey (r : IdaRaw) : IdaKey :=
  (r.credit_number, r.board_approval_date, r.country_code, r.project_id, r.project_name)

structure IdaSummary where
  credit_number : String
  board_approval_date : Int
  country_code : String
  project_id : String
  project_name : String
  country : String
  service_charge_rate : Option ℚ
  original_principal_amount_us_ : Option ℚ
  deriving DecidableEq, Repr

/-- Embedding of `get_ida_interest`, parametrised by the Parquet table it loads:
group by the five index columns taking the `"max"` of (`country`,
`service_charge_rate`, `original_principal_amount_us_`), drop duplicate
(`credit_number`, `country_code`, `project_id`) keys keeping the last,
then `zero_to_nan` on `service_charge_rate`.  (As in
`deduplicate_crs_data`, the sort order pandas gives the groups is
irrelevant to the properties proved below.) -/
def get_ida_interest (ida : List IdaRaw) : List IdaSummary :=
  let grouped := ((ida.map idaKey).dedup).map (fun k =>
    let g := ida.filter (fun r => idaKey r = k)
    ({ credit_number := k.1
       board_approval_date := k.2.1
       country_code := k.2.2.1
       project_id := k.2.2.2.1
       project_name := k.2.2.2.2
       country := maxs (g.map (fun r => r.country))
       service_charge_rate := maxo (g.map (fun r => r.service_charge_rate))
       original_principal_amount_us_ :=
         maxo (g.map (fun r => r.original_principal_amount_us_)) } : IdaSummary))
  let deduped := dropDuplicatesKeepLast
    (fun r => (r.credit_number, r.country_code, r.project_id)) grouped
  deduped.map (fun r => { r with service_charge_rate := zero_to_nan r.service_charge_rate })

/-- A raw IBRD statement row, restricted to the columns
`get_ibrd_interest` reads. -/
structure IbrdRaw where
  loan_number : String
  board_approval_date : Int
  country_code : String
  project_id : String
  project_name_ : String
  loan_type : String
  country : String
  interest_rate : Option ℚ
  original_principal_amount : Option ℚ
  deriving DecidableEq, Repr

abbrev IbrdKey := String × Int × String × String × String × String

def ibrdKey (r : IbrdRaw) : IbrdKey :=
  (r.loan_number, r.board_approval_date, r.country_code, r.project_id,
   r.project_name_, r.loan_type)

structure IbrdSummary where
  loan_number : String
  board_approval_date : Int
  country_code : String
  project_id : String
  project_name_ : String
  loan_type : String
  country : String
  interest_rate : Option ℚ
  original_principal_amount : Option ℚ
  deriving DecidableEq, Repr

/-- Embedding of `get_ibrd_interest`, parametrised by the Parquet table it loads:
group by the six index columns taking the `"max"` of (`country`,
`interest_rate`, `original_principal_amount`), drop duplicate
(`loan_number`, `country_code`, `project_id`) keys keeping the last,
then `zero_to_nan` on `interest_rate`. -/
def get_ibrd_interest (ibrd : List IbrdRaw) : List IbrdSummary :=
  let grouped := ((ibrd.map ibrdKey).dedup).map (fun k =>
    let g := ibrd.filter (fun r => ibrdKey r = k)
    ({ loan_number := k.1
       board_approval_date := k.2.1
       country_code := k.2.2.1
       project_id := k.2.2.2.1
       project_name_ := k.2.2.2.2.1
       loan_type := k.2.2.2.2.2
       country := maxs (g.map (fun r => r.country))
       interest_rate := maxo (g.map (fun r => r.interest_rate))
       original_principal_amount :=
         maxo (g.map (fun r => r.original_principal_amount)) } : IbrdSummary))
  let deduped := dropDuplicatesKeepLast
    (fun r => (r.loan_number, r.country_code, r.project_id)) grouped
  deduped.map (fun r => { r with interest_rate := zero_to_nan r.interest_rate })

/-! ## `scripts/country_level.py` — `_download_and_clean_interest_data`

The result is a frame carrying its column list explicitly, because the
claims about this function are about its column sets.  A cell is a
string, a number or a missing value. -/

inductive Cell where
  | str : String → Cell
  | int : Int → Cell
  | num : ℚ → Cell
  | null : Cell
  deriving DecidableEq, Repr

structure Frame where
  cols : List String
  rows : List (List Cell)
  deriving DecidableEq, Repr

/-- A row of `get_average_interest(countries=[country])`: the canonical
column set of the upstream IDS interest series. -/
structure AvgInterestRow where
  entity_name : String
  counterpart_name : String
  year : Int
  indicator_code : String
  value : ℚ
  deriving DecidableEq, Repr

def interest_columns : List String :=
  ["entity_name", "counterpart_name", "year", "indicator_code", "value"]

/-- The `np.where` step: suffix `" (private)"` to `counterpart_name`
when `indicator_code == "DT.INR.PRVT"`, else `" (official)"`. -/
def label_counterpart (r : AvgInterestRow) : AvgInterestRow :=
  { r with counterpart_name :=
      r.counterpart_name ++
        (if r.indicator_code = "DT.INR.PRVT" then " (private)" else " (official)") }

/-- Embedding of `sort_values(["counterpart_name", "year"], ascending=(True, False))`:
`a` sorts no later than `b`. -/
def cleanLE (a b : AvgInterestRow) : Bool :=
  if a.counterpart_name = b.counterpart_name then decide (b.year ≤ a.year)
  else strLt a.counterpart_name b.counterpart_name

def insertSorted (r : AvgInterestRow) : List AvgInterestRow → List AvgInterestRow
  | [] => [r]
  | a :: rest => if cleanLE r a then r :: a :: rest else a :: insertSorted r rest

def sortClean (l : List AvgInterestRow) : List AvgInterestRow :=
  l.foldr insertSorted []

/-- The cells of one output row after `drop(columns="indicator_code")`. -/
def rowCells (r : AvgInterestRow) : List Cell :=
  [.str r.entity_name, .str r.counterpart_name, .int r.year, .num r.value]

/-- Embedding of `_download_and_clean_interest_data`, with the try/except over
`get_average_interest` embedded as an `Except` input: on failure return
an empty frame with the canonical five columns; on success suffix the
counterpart names, drop zero-value rows, drop the `indicator_code`
column and sort. -/
def download_and_clean_interest_data
    (fetched : Except String (List AvgInterestRow)) : Frame :=
  match fetched with
  | .error _ => { cols := interest_columns, rows := [] }
  | .ok df =>
    let labelled := df.map label_counterpart
    let nonzero := labelled.filter (fun d => d.value ≠ 0)
    let sorted := sortClean nonzero
    { cols := interest_columns.erase "indicator_code"
      rows := sorted.map rowCells }

/-! ## `scripts/ids/terms.py` —
`get_merged_rates_commitments_grace_maturities_data`

Each of the four fetched tables (interest rate, commitments, grace,
maturities) is a list of keyed observations with a generic `value`
column.  The function is parametrised by the four tables its Python
body fetches. -/

structure KeyedValue where
  year : Int
  entity_name : String
  counterpart_name : String
  continent : String
  income_level : String
  value : Option ℚ
  deriving DecidableEq, Repr

abbrev TermsKey := Int × String × String × String × String

def kvKey (r : KeyedValue) : TermsKey :=
  (r.year, r.entity_name, r.counterpart_name, r.continent, r.income_level)

/-- A row of the merged frame.  The suffix mechanics of the chained
`pd.merge` calls plus the final `rename` name the four value columns
`value_commitments`, `value_rate`, `value_grace`, `value_maturities`. -/
structure MergedRow where
  year : Int
  entity_name : String
  counterpart_name : String
  continent : String
  income_level : String
  value_commitments : Option ℚ
  value_rate : Option ℚ
  value_grace : Option ℚ
  value_maturities : Option ℚ
  deriving DecidableEq, Repr

def mergedKey (r : MergedRow) : TermsKey :=
  (r.year, r.entity_name, r.counterpart_name, r.continent, r.income_level)

def initMerged (c : KeyedValue) : MergedRow :=
  { year := c.year
    entity_name := c.entity_name
    counterpart_name := c.counterpart_name
    continent := c.continent
    income_level := c.income_level
    value_commitments := c.value
    value_rate := none
    value_grace := none
    value_maturities := none }

/-- One left merge on the five-column key: every left row joins to each
matching right row, and keeps NaN in the new column if none matches. -/
def leftMergeStep (acc : List MergedRow) (right : List KeyedValue)
    (set : MergedRow → Option ℚ → MergedRow) : List MergedRow :=
  acc.flatMap (fun l =>
    let ms := right.filter (fun r => kvKey r = mergedKey l)
    if ms.isEmpty then [set l none]
    else ms.map (fun r => set l r.value))

/-- Embedding of `get_merged_rates_commitments_grace_maturities_data`, parametrised
by the four tables it fetches: left-join `commitments` with `rate`,
`grace` and `maturities` on (year, entity, counterpart, continent,
income level), name the value columns apart, and keep only the rows
with `value_commitments > 0` (a NaN commitment compares as not `> 0`
and is dropped, as in pandas). -/
def get_merged_rates_commitments_grace_maturities_data
    (rate commitments grace maturities : List KeyedValue) : List MergedRow :=
  let df1 := commitments.map initMerged
  let df2 := leftMergeStep df1 rate (fun m v => { m with value_rate := v })
  let df3 := leftMergeStep df2 grace (fun m v => { m with value_grace := v })
  let df4 := leftMergeStep df3 maturities (fun m v => { m with value_maturities := v })
  df4.filter (fun d =>
    match d.value_commitments with
    | some v => decide (0 < v)
    | none => false)

/-! ## Concrete rows used to instantiate the theorems -/

def wbRowA : WBRow :=
  { project_id := "P100", loan_or_credit_number := "C100", country := "Kenya",
    iso3 := "KEN", board_approval_date := 7300, interest_rate := some 2,
    original_principal_amount := some 1000, source := "IDA" }

def wbRowB : WBRow :=
  { project_id := "P200", loan_or_credit_number := "C200", country := "Ghana",
    iso3 := "GHA", board_approval_date := 7400, interest_rate := some 3,
    original_principal_amount := some 500, source := "IDA" }

def crsRowB : CRSRow :=
  { project_id := "P200", loan_or_credit_number := "C200", iso3 := "GHA",
    board_approval_date := 7400, interest_rate := some 5,
    donor_name := "International Development Association" }

def wbRowC : WBRow :=
  { project_id := "P300", loan_or_credit_number := "C300", country := "Senegal",
    iso3 := "SEN", board_approval_date := 7500, interest_rate := none,
    original_principal_amount := some 800, source := "IBRD" }

def crsRowC : CRSRow :=
  { project_id := "P300", loan_or_credit_number := "C300", iso3 := "SEN",
    board_approval_date := 7500, interest_rate := some 5,
    donor_name := "International Bank for Reconstruction and Development" }

def wbRowD : WBRow :=
  { project_id := "P400", loan_or_credit_number := "C400", country := "Togo",
    iso3 := "TGO", board_approval_date := 7600, interest_rate := none,
    original_principal_amount := some 250, source := "IDA" }

def crsRowD1 : CRSRow :=
  { project_id := "P400", loan_or_credit_number := "C400", iso3 := "TGO",
    board_approval_date := 7600, interest_rate := some 1,
    donor_name := "International Development Association" }

def crsRowD2 : CRSRow :=
  { project_id := "P400", loan_or_credit_number := "C400", iso3 := "TGO",
    board_approval_date := 7600, interest_rate := some 4,
    donor_name := "World Bank" }

/-! ## Helper lemmas -/

theorem option_isNone_eq_not_isSome {α : Type} (o : Option α) :
    o.isNone = ! o.isSome := by
  cases o <;> rfl

theorem filter_singleton_of_nodup {α : Type} [DecidableEq α] {l : List α} {a : α}
    (hnd : l.Nodup) (ha : a ∈ l) : l.filter (fun x => x = a) = [a] := by
  induction l with
  | nil => cases ha
  | cons b t ih =>
    rcases List.nodup_cons.1 hnd with ⟨hbt, hndt⟩
    rcases List.mem_cons.1 ha with h | h
    · subst h
      have ht : t.filter (fun x => x = a) = [] := by
        apply List.filter_eq_nil_iff.2
        intro x hx
        simp only [decide_eq_true_eq]
        intro hxa
        exact hbt (hxa ▸ hx)
      simp [List.filter_cons, ht]
    · have hba : ¬ (b = a) := fun hba => hbt (hba ▸ h)
      simp [List.filter_cons, hba, ih hndt h]

theorem filter_key_length_le_one {α β : Type} [DecidableEq β] (key : α → β)
    {l : List α} (h : (l.map key).Nodup) (k : β) :
    (l.filter (fun c => key c = k)).length ≤ 1 := by
  induction l with
  | nil => simp
  | cons a t ih =>
    simp only [List.map_cons, List.nodup_cons] at h
    rcases h with ⟨hka, hnd⟩
    by_cases hak : key a = k
    · have ht : t.filter (fun c => key c = k) = [] := by
        apply List.filter_eq_nil_iff.2
        intro x hx
        simp only [decide_eq_true_eq]
        intro hxk
        exact hka (List.mem_map.2 ⟨x, hx, by rw [hxk, hak]⟩)
      simp [List.filter_cons, hak, ht]
    · simpa [List.filter_cons, hak] using ih hnd

theorem flatMap_length_le_of_le_one {α β : Type} {l : List α} {f : α → List β}
    (h : ∀ a ∈ l, (f a).length ≤ 1) : (l.flatMap f).length ≤ l.length := by
  induction l with
  | nil => simp
  | cons a t ih =>
    simp only [List.flatMap_cons, List.length_append, List.length_cons]
    have h1 := h a (List.mem_cons_self a t)
    have h2 := ih (fun b hb => h b (List.mem_cons_of_mem a hb))
    omega

theorem filter_map_key_eq {α β : Type} [DecidableEq α] (f : α → β) (key : β → α)
    (hsec : ∀ a, key (f a) = a) (l : List α) (k : α) :
    (l.map f).filter (fun b => key b = k) = (l.filter (fun a => a = k)).map f := by
  induction l with
  | nil => rfl
  | cons a t ih =>
    simp only [List.map_cons, List.filter_cons, hsec]
    by_cases h : a = k
    · simp [h, ih]
    · simp [h, ih]

theorem withRate_dropRate (w : WBRow) (v : Option ℚ) :
    withRate (dropRate w) v = { w with interest_rate := v } := by
  cases w
  rfl

/-! ## Theorems for the claims -/

/-- C1: for every pair of input tables, every row returned by the
reconciler `get_project_level_interest` has a non-null `interest_rate`;
rows whose rate is still missing after the CRS left-join are dropped,
not emitted. -/
theorem C1_reconciled_rate_present (wb : List WBRow) (crs : List CRSRow)
    (r : WBRow) (hr : r ∈ get_project_level_interest wb crs) :
    r.interest_rate.isSome = true := by
  unfold get_project_level_interest at hr
  rcases List.mem_append.1 hr with h | h
  · exact (List.mem_filter.1 h).2
  · exact (List.mem_filter.1 h).2

theorem C1_witness : wbRowA.interest_rate.isSome = true :=
  C1_reconciled_rate_present [wbRowA] [] wbRowA (by decide)

/-- C2: a WB input row whose `interest_rate` is present is emitted by
the reconciler as-is (its rate is never replaced by a CRS value; the
CRS join is only applied to the null-rate partition). -/
theorem C2_wb_rate_precedence (wb : List WBRow) (crs : List CRSRow)
    (r : WBRow) (q : ℚ) (hmem : r ∈ wb) (hrate : r.interest_rate = some q) :
    r ∈ get_project_level_interest wb crs := by
  unfold get_project_level_interest
  exact List.mem_append.2 (Or.inl (List.mem_filter.2 ⟨hmem, by simp [hrate]⟩))

/-- C2 at the concrete example of the spec: a WB record with rate 3 and a
CRS record with rate 5 at the same composite key yield the WB record,
rate 3, in the output (here the output is exactly that one row). -/
theorem C2_witness :
    wbRowB.interest_rate = some 3 ∧
    wbRowB ∈ get_project_level_interest [wbRowB] [crsRowB] ∧
    get_project_level_interest [wbRowB] [crsRowB] = [wbRowB] :=
  ⟨rfl, C2_wb_rate_precedence [wbRowB] [crsRowB] wbRowB 3 (by decide) rfl, by decide⟩

/-- C3: a WB input row with a null rate that matches a CRS row with
rate `r` on the composite key (project id, loan/credit number, ISO3
country code, board approval date) appears in the output of the reconciler
with `interest_rate = r`. -/
theorem C3_crs_backfill (wb : List WBRow) (crs : List CRSRow)
    (w : WBRow) (c : CRSRow) (r : ℚ)
    (hw : w ∈ wb) (hnull : w.interest_rate = none) (hc : c ∈ crs)
    (hkey : crsKey c = wbKey (dropRate w)) (hr : c.interest_rate = some r) :
    { w with interest_rate := some r } ∈ get_project_level_interest wb crs := by
  unfold get_project_level_interest
  apply List.mem_append.2
  right
  apply List.mem_filter.2
  constructor
  · unfold add_available_interest_rate_data_from_crs
    apply List.mem_flatMap.2
    refine ⟨dropRate w, ?_, ?_⟩
    · unfold filter_keep_only_missing_interest
      exact List.mem_map.2 ⟨w, List.mem_filter.2 ⟨hw, by simp [hnull]⟩, rfl⟩
    · have hcm : c ∈ crs.filter (fun x => crsKey x = wbKey (dropRate w)) :=
        List.mem_filter.2 ⟨hc, by simp [hkey]⟩
      have hne : (crs.filter (fun x => crsKey x = wbKey (dropRate w))).isEmpty = false := by
        rcases he : crs.filter (fun x => crsKey x = wbKey (dropRate w)) with _ | ⟨x, xs⟩
        · rw [he] at hcm; cases hcm
        · rfl
      simp only [hne, Bool.false_eq_true, if_false]
      refine List.mem_map.2 ⟨c, hcm, ?_⟩
      rw [hr, withRate_dropRate]
  · simp

theorem C3_witness :
    wbRowC.interest_rate = none ∧
    { wbRowC with interest_rate := some 5 } ∈
      get_project_level_interest [wbRowC] [crsRowC] :=
  ⟨rfl, C3_crs_backfill [wbRowC] [crsRowC] wbRowC crsRowC 5
    (by decide) rfl (by decide) (by decide) rfl⟩

/-- C4, counterexample: with a CRS table holding two rows at the same
composite key (which upstream deduplication does not rule out, since it
deduplicates on `recipient_code` while the join is on `iso3`), the left
join fans out and one WB input row yields two output rows, so the
output is strictly longer than the input. -/
theorem C4_counterexample :
    ¬ ((get_project_level_interest [wbRowD] [crsRowD1, crsRowD2]).length ≤
        ([wbRowD] : List WBRow).length) := by
  decide

/-- C4, amended: if the composite keys of the CRS table are pairwise
distinct (what upstream deduplication is intended to provide), then
each WB input row contributes at most one output row, so the
output of the reconciler is never longer than its WB input. -/
theorem C4_no_fanout_when_keys_unique (wb : List WBRow) (crs : List CRSRow)
    (hnd : (crs.map crsKey).Nodup) :
    (get_project_level_interest wb crs).length ≤ wb.length := by
  unfold get_project_level_interest
  rw [List.length_append]
  have hsplit := List.length_eq_length_filter_add (l := wb)
    (fun d => d.interest_rate.isSome)
  -- Bound the backfilled partition by the missing partition.
  have hmissing :
      (filter_keep_only_missing_interest wb).length =
        (wb.filter (fun a => ! a.interest_rate.isSome)).length := by
    unfold filter_keep_only_missing_interest
    rw [List.length_map]
    congr 1
    apply List.filter_congr
    intro x _
    rw [option_isNone_eq_not_isSome]
  have hback :
      ((add_available_interest_rate_data_from_crs
          (filter_keep_only_missing_interest wb) crs).filter
        (fun d => d.interest_rate.isSome)).length ≤
      (filter_keep_only_missing_interest wb).length := by
    unfold add_available_interest_rate_data_from_crs
    rw [List.filter_flatMap]
    apply flatMap_length_le_of_le_one
    intro w _
    rcases he : (crs.filter (fun c => crsKey c = wbKey w)).isEmpty with _ | _
    · -- some CRS row matches: at most one does, since keys are distinct
      simp only [he, Bool.false_eq_true, if_false]
      have h1 := List.length_filter_le (fun d => d.interest_rate.isSome)
        ((crs.filter (fun c => crsKey c = wbKey w)).map
          (fun c => withRate w c.interest_rate))
      have h2 : ((crs.filter (fun c => crsKey c = wbKey w)).map
          (fun c => withRate w c.interest_rate)).length =
          (crs.filter (fun c => crsKey c = wbKey w)).length :=
        List.length_map _ _
      have h3 := filter_key_length_le_one crsKey hnd (wbKey w)
      omega
    · -- no CRS row matches: the single NaN-rate row is filtered out
      simp only [he, if_true]
      simp [withRate]
  omega

theorem C4_witness :
    (get_project_level_interest [wbRowD] [crsRowD1]).length ≤
      ([wbRowD] : List WBRow).length :=
  C4_no_fanout_when_keys_unique [wbRowD] [crsRowD1] (by decide)

/-- C5: `deduplicate_crs_data` emits exactly one row per distinct input
group key (project id, loan/credit number, recipient code, board
approval date); every output row corresponds to an input group; and on
each group the four `usd_` columns are summed while `interest_rate` is
the `np.fmax` of the `"max"`-aggregated `interest1`/`interest2`,
divided by 1000. -/
theorem C5_dedup_is_groupby (df : List CrsRaw) (k : CrsKey)
    (hk : k ∈ df.map rawKey) :
    ((deduplicate_crs_data df).filter (fun r => dedupKey r = k)).length = 1 ∧
    (∀ r ∈ deduplicate_crs_data df, dedupKey r ∈ df.map rawKey) ∧
    (∀ r ∈ deduplicate_crs_data df, dedupKey r = k →
      r.usd_interest =
        sumo ((df.filter (fun x => rawKey x = k)).map (fun x => x.usd_interest)) ∧
      r.usd_received =
        sumo ((df.filter (fun x => rawKey x = k)).map (fun x => x.usd_received)) ∧
      r.usd_commitment =
        sumo ((df.filter (fun x => rawKey x = k)).map (fun x => x.usd_commitment)) ∧
      r.usd_disbursement =
        sumo ((df.filter (fun x => rawKey x = k)).map (fun x => x.usd_disbursement)) ∧
      r.interest_rate =
        (fmaxOpt (maxo ((df.filter (fun x => rawKey x = k)).map (fun x => x.interest1)))
                 (maxo ((df.filter (fun x => rawKey x = k)).map (fun x => x.interest2)))).map
          (fun x => x / 1000)) := by
  refine ⟨?_, ?_, ?_⟩
  · unfold deduplicate_crs_data
    rw [filter_map_key_eq _ dedupKey (by intro x; rfl) _ k,
      filter_singleton_of_nodup (List.nodup_dedup _) (List.mem_dedup.2 hk)]
    rfl
  · intro r hr
    unfold deduplicate_crs_data at hr
    rcases List.mem_map.1 hr with ⟨k0, hk0, hEq⟩
    subst hEq
    show k0 ∈ df.map rawKey
    exact List.mem_dedup.1 hk0
  · intro r hr hkey
    unfold deduplicate_crs_data at hr
    rcases List.mem_map.1 hr with ⟨k0, hk0, hEq⟩
    subst hEq
    have hk0k : k0 = k := hkey
    subst hk0k
    exact ⟨rfl, rfl, rfl, rfl, rfl⟩

theorem C5_witness :
    ((deduplicate_crs_data
        [{ project_id := "P1", loan_or_credit_number := "L1", recipient_code := 248,
           commitment_date := 7300, interest1 := some 1500, interest2 := none,
           usd_interest := some 2, usd_received := some 3, usd_commitment := some 10,
           usd_disbursement := some 4 },
         { project_id := "P1", loan_or_credit_number := "L1", recipient_code := 248,
           commitment_date := 7300, interest1 := none, interest2 := some 2500,
           usd_interest := some 1, usd_received := none, usd_commitment := some 20,
           usd_disbursement := some 6 }]).filter
      (fun r => dedupKey r = ("P1", "L1", 248, 7300))).length = 1 :=
  (C5_dedup_is_groupby _ ("P1", "L1", 248, 7300) (by decide)).1

/-- The page at `skip = 0` holds two records, the page at `skip = 2`
one record, later pages none: a three-row dataset at page size 2. -/
def apiW : Nat → List Nat :=
  fun skip => if skip = 0 then [10, 20] else if skip = 2 then [30] else []

theorem fetchLoop_spec {α : Type} (api : Nat → List α) (m k : Nat)
    (hshort : (api (k * m)).length < m) :
    ∀ (fuel i : Nat) (acc : List α), k - i < fuel → i ≤ k →
      (∀ j, i ≤ j → j < k → m ≤ (api (j * m)).length) →
      fetchLoop api m fuel (i * m) acc =
        some (acc ++ ((List.range' i (k - i + 1)).map (fun j => api (j * m))).flatten) := by
  intro fuel
  induction fuel with
  | zero =>
    intro i acc h1 h2 h3
    omega
  | succ fuel ih =>
    intro i acc h1 h2 h3
    by_cases hik : i = k
    · subst hik
      simp [fetchLoop, hshort, List.range'_succ]
    · have hik2 : i < k := lt_of_le_of_ne h2 hik
      have hnotshort : ¬ ((api (i * m)).length < m) :=
        not_lt.2 (h3 i le_rfl hik2)
      have hstep : i * m + m = (i + 1) * m := (Nat.succ_mul i m).symm
      have hrec := ih (i + 1) (acc ++ api (i * m)) (by omega) (by omega)
        (fun j hj1 hj2 => h3 j (by omega) hj2)
      simp only [fetchLoop, hnotshort, if_false]
      rw [hstep, hrec]
      have hn : k - i + 1 = (k - (i + 1) + 1) + 1 := by omega
      rw [hn]
      simp [List.range'_succ, List.append_assoc]

/-- C6: if the page at offset `k * max_records` is the first page
shorter than `max_records` (all earlier pages are full), the paginated
fetch terminates there and returns the concatenation of pages
`0, max_records, 2 * max_records, …, k * max_records` in request
order, for every sufficient fuel. -/
theorem C6_pagination (α : Type) (api : Nat → List α) (m k fuel : Nat)
    (hshort : (api (k * m)).length < m)
    (hlong : ∀ j, j < k → m ≤ (api (j * m)).length)
    (hfuel : k < fuel) :
    fetch_paginated_data api m fuel =
      some (((List.range (k + 1)).map (fun j => api (j * m))).flatten) := by
  have h := fetchLoop_spec api m k hshort fuel 0 [] (by omega) (by omega)
    (fun j _ hj => hlong j hj)
  rw [Nat.zero_mul] at h
  simpa [fetch_paginated_data, List.range_eq_range'] using h

theorem C6_witness : fetch_paginated_data apiW 2 3 = some [10, 20, 30] :=
  (C6_pagination Nat apiW 2 1 3 (by decide) (by decide) (by decide)).trans (by decide)

/-- C7: when the upstream fetch for a country fails, the per-country
cleaner returns (it does not raise) a zero-row frame whose columns are
exactly `entity_name, counterpart_name, year, indicator_code, value`. -/
theorem C7_failure_returns_empty_frame (e : String) :
    (download_and_clean_interest_data (.error e)).cols =
      ["entity_name", "counterpart_name", "year", "indicator_code", "value"] ∧
    (download_and_clean_interest_data (.error e)).rows = [] :=
  ⟨rfl, rfl⟩

theorem zero_to_nan_ne_zero (v : Option ℚ) : zero_to_nan v ≠ some 0 := by
  unfold zero_to_nan
  by_cases h : v = some 0
  · simp [h]
  · simp [h]

/-- C8: the WB project-level summaries never carry a zero rate: in
`get_ida_interest` a zero `service_charge_rate` and in
`get_ibrd_interest` a zero `interest_rate` have been replaced by a
missing value (`zero_to_nan` maps `0` to NaN and is the identity
elsewhere). -/
theorem C8_zero_rates_become_missing (ida : List IdaRaw) (ibrd : List IbrdRaw)
    (r : IdaSummary) (s : IbrdSummary)
    (hr : r ∈ get_ida_interest ida) (hs : s ∈ get_ibrd_interest ibrd) :
    r.service_charge_rate ≠ some 0 ∧ s.interest_rate ≠ some 0 ∧
    zero_to_nan (some 0) = none := by
  refine ⟨?_, ?_, rfl⟩
  · unfold get_ida_interest at hr
    rcases List.mem_map.1 hr with ⟨x, _, hEq⟩
    subst hEq
    exact zero_to_nan_ne_zero x.service_charge_rate
  · unfold get_ibrd_interest at hs
    rcases List.mem_map.1 hs with ⟨x, _, hEq⟩
    subst hEq
    exact zero_to_nan_ne_zero x.interest_rate

def idaRawW : IdaRaw :=
  { credit_number := "IDA1", board_approval_date := 7300, country_code := "KE",
    project_id := "P100", project_name := "Roads", country := "Kenya",
    service_charge_rate := some 0, original_principal_amount_us_ := some 1000 }

def ibrdRawW : IbrdRaw :=
  { loan_number := "IBRD1", board_approval_date := 7400, country_code := "GH",
    project_id := "P200", project_name_ := "Energy", loan_type := "FSL",
    country := "Ghana", interest_rate := some 0,
    original_principal_amount := some 2000 }

def idaSummaryW : IdaSummary :=
  { credit_number := "IDA1", board_approval_date := 7300, country_code := "KE",
    project_id := "P100", project_name := "Roads", country := "Kenya",
    service_charge_rate := none, original_principal_amount_us_ := some 1000 }

def ibrdSummaryW : IbrdSummary :=
  { loan_number := "IBRD1", board_approval_date := 7400, country_code := "GH",
    project_id := "P200", project_name_ := "Energy", loan_type := "FSL",
    country := "Ghana", interest_rate := none,
    original_principal_amount := some 2000 }

theorem C8_witness :
    idaSummaryW.service_charge_rate ≠ some 0 ∧ ibrdSummaryW.interest_rate ≠ some 0 := by
  have h := C8_zero_rates_become_missing [idaRawW] [ibrdRawW] idaSummaryW ibrdSummaryW
    (by decide) (by decide)
  exact ⟨h.1, h.2.1⟩

/-- C9: every row of the merged rates/commitments/grace/maturities
frame has a strictly positive commitment value; rows whose commitment
is missing or non-positive are dropped by the final filter. -/
theorem C9_positive_commitments (rate commitments grace maturities : List KeyedValue)
    (r : MergedRow)
    (hr : r ∈ get_merged_rates_commitments_grace_maturities_data
      rate commitments grace maturities) :
    ∃ v, r.value_commitments = some v ∧ 0 < v := by
  unfold get_merged_rates_commitments_grace_maturities_data at hr
  have hp := (List.mem_filter.1 hr).2
  rcases hv : r.value_commitments with _ | v
  · rw [hv] at hp
    cases hp
  · rw [hv] at hp
    exact ⟨v, rfl, of_decide_eq_true hp⟩

def kvW : KeyedValue :=
  { year := 2022, entity_name := "Kenya", counterpart_name := "Bondholders",
    continent := "Africa", income_level := "Lower middle income", value := some 5 }

theorem C9_witness :
    ∃ v, (({ year := kvW.year, entity_name := kvW.entity_name,
             counterpart_name := kvW.counterpart_name, continent := kvW.continent,
             income_level := kvW.income_level, value_commitments := kvW.value,
             value_rate := none, value_grace := none,
             value_maturities := none } : MergedRow)).value_commitments = some v ∧ 0 < v :=
  C9_positive_commitments [] [kvW] [] [] _ (by decide)

/-- C10: the success branch of the per-country cleaner drops the
`indicator_code` column while the failure branch keeps it, so the two
branches return different column sets. -/
theorem C10_branch_column_sets_differ (rows : List AvgInterestRow) (e : String) :
    "indicator_code" ∉ (download_and_clean_interest_data (.ok rows)).cols ∧
    "indicator_code" ∈ (download_and_clean_interest_data (.error e)).cols ∧
    (download_and_clean_interest_data (.ok rows)).cols ≠
      (download_and_clean_interest_data (.error e)).cols := by
  have hok : (download_and_clean_interest_data (.ok rows)).cols =
      interest_columns.erase "indicator_code" := rfl
  have herr : (download_and_clean_interest_data (.error e)).cols =
      interest_columns := rfl
  rw [hok, herr]
  refine ⟨by decide, by decide, by decide⟩

end BorrowingCosts
